import Mathlib

/-!
Shallow embedding of the hello_asm repository's orchestration core.

The repository drives, per language spec, a write → compile (0..N steps) →
run pipeline in five front ends: `multi_lang_hello.py` (plain console),
`educational_hello.py` (rich terminal dashboard), `animated_hello.py`
(SSE-driven animation), `graphical_hello.py` (tkinter GUI) and
`web_hello.py` (browser UI).  Each front end has its own subprocess
executor and orchestration loop; they are embedded here separately,
parameterised by an environment that fixes the behaviour of every external
process (whether the binary resolves, its exit code, wall-clock duration,
and captured stdout/stderr).  Elapsed times are modelled as exact
whole time units (naturals); the Python sources use binary floating-point
seconds, which agrees with this model on every quantity the theorems below
mention.  Progress percentages keep exact rational arithmetic.
-/

namespace HelloAsm

/-- Behaviour of one external process invocation: whether argv[0] resolves,
its exit code, its wall-clock duration, and the text it writes to stdout
and stderr.  Durations and elapsed times are modelled as whole time units
(the Python sources use float seconds; no claim depends on fractional
elapsed values, and whole units reduce in the kernel). -/
structure RawProc where
  found : Bool
  exitCode : Nat
  duration : Nat
  stdout : String
  stderr : String
deriving Repr, DecidableEq

/-- A process that resolves, exits 0 instantly and prints nothing (used as
the out-of-range default when an environment supplies too few procs). -/
def okProc : RawProc := ⟨true, 0, 0, "", ""⟩

/-- Outcome of Python `subprocess.run(cmd, check=True, timeout=...)`:
normal completion, `FileNotFoundError`, `CalledProcessError` or
`TimeoutExpired`. -/
inductive RunOutcome where
  | ok (stdout stderr : String)
  | fileNotFound
  | nonZero (code : Nat) (stdout stderr : String)
  | timedOut
deriving Repr, DecidableEq

/-- Semantics of `subprocess.run(..., check=True)` with an optional
`timeout` argument: `FileNotFoundError` if argv[0] does not resolve,
`TimeoutExpired` if a timeout was passed and the process runs longer,
`CalledProcessError` on a non-zero exit, otherwise the captured streams. -/
def subprocessRun (proc : RawProc) (timeoutS : Option Nat) : RunOutcome :=
  if !proc.found then .fileNotFound
  else if (match timeoutS with
           | some t => decide (t < proc.duration)
           | none => false) then .timedOut
  else if proc.exitCode ≠ 0 then .nonZero proc.exitCode proc.stdout proc.stderr
  else .ok proc.stdout proc.stderr

/-- Python `repr` of a string (single-quoted). -/
def pyQuote (s : String) : String := "\x27" ++ s ++ "\x27"

/-- Python `repr` of a list of strings. -/
def pyListRepr (cmd : List String) : String :=
  "[" ++ String.intercalate ", " (cmd.map pyQuote) ++ "]"

/-- `str(e)` for `subprocess.CalledProcessError e`. -/
def calledProcessErrorStr (cmd : List String) (code : Nat) : String :=
  "Command " ++ pyQuote (pyListRepr cmd) ++ " returned non-zero exit status "
    ++ toString code ++ "."

/-- `str(e)` for the `FileNotFoundError` raised when argv[0] cannot be
resolved. -/
def fileNotFoundStr (cmd : List String) : String :=
  "[Errno 2] No such file or directory: " ++ pyQuote (cmd.headD "")

/-- Python `str.strip()`: remove leading and trailing whitespace.
Implemented structurally over the character list so that it reduces in the
kernel (`String.trim` in core is defined by well-founded recursion and
does not). -/
def pyStrip (s : String) : String :=
  ⟨((s.data.dropWhile Char.isWhitespace).reverse.dropWhile Char.isWhitespace).reverse⟩

/-- Python truthiness fallback `a or b` on strings. -/
def strOr (a b : String) : String := if a = "" then b else a

/-- The `(ok, elapsed, stdout, stderr)` tuple returned by the per-front-end
`run_subprocess` helpers. -/
structure SubpResult where
  ok : Bool
  elapsed : Nat
  stdout : String
  stderr : String
deriving Repr, DecidableEq

/-- One language definition: the fields shared by the `LANGUAGES` tables of
all five front ends (`name`, `filename`, source text, ordered compile
command list, run command). -/
structure LanguageSpec where
  name : String
  filename : String
  source : String
  compile_cmds : List (List String)
  runCmd : List String
deriving Repr, DecidableEq

/-- Environment for one pipeline: the outcome of the source-file write and
the behaviour of each compile step (positionally) and of the run command. -/
structure LangEnv where
  writeOk : Bool
  writeErr : String
  writeTime : Nat
  compileProcs : List RawProc
  runProc : RawProc
deriving Repr, DecidableEq

/-- Behaviour of compile step `i` (0-indexed). -/
def LangEnv.compileProc (env : LangEnv) (i : Nat) : RawProc :=
  env.compileProcs[i]?.getD okProc

/-- Success of a process under a 30-second timeout: the binary resolves,
it finishes within the bound and exits 0. -/
def ok30 (p : RawProc) : Bool :=
  p.found && p.exitCode == 0 && decide (p.duration ≤ 30)

/-- Success of a process when no timeout is passed: the binary resolves and
exits 0, however long it runs. -/
def okNoTimeout (p : RawProc) : Bool :=
  p.found && p.exitCode == 0

/-- Filesystem-visible orchestration actions: an rmtree of the workspace,
its creation, a source-file write, or the launch of an external command. -/
inductive Action where
  | rmtreeWs
  | createWs
  | writeFile (filename : String)
  | execCmd (label : String) (cmd : List String)
deriving Repr, DecidableEq

/-- Filesystem behaviour for one orchestration run: whether a stale
workspace from a previous run exists at start, and whether the final
`shutil.rmtree` succeeds. -/
structure FsEnv where
  initialExists : Bool
  rmtreeOk : Bool
deriving Repr, DecidableEq

end HelloAsm

namespace HelloAsm.Web

open HelloAsm

/-- The workspace directory of `web_hello.py` (`Path(__file__).parent /
"web_hello_workspace"`), as an abstract path string. -/
def WORKSPACE : String := "web_hello_workspace"

/-- `web_hello.run_subprocess` (lines 643-666): `subprocess.run` with
`cwd=WORKSPACE`, text capture and `timeout=30`; strips both streams on
success; on `CalledProcessError e` returns `e.stdout or ""` and
`e.stderr or str(e)` unstripped; `FileNotFoundError` and `TimeoutExpired`
yield fixed Korean messages. -/
def run_subprocess (cmd : List String) (proc : RawProc) : SubpResult :=
  match subprocessRun proc (some 30) with
  | .ok out err => ⟨true, proc.duration, pyStrip out, pyStrip err⟩
  | .nonZero code out err => ⟨false, proc.duration, out, strOr err (calledProcessErrorStr cmd code)⟩
  | .fileNotFound => ⟨false, proc.duration, "", "명령어를 찾을 수 없음: " ++ cmd.headD ""⟩
  | .timedOut => ⟨false, proc.duration, "", "타임아웃 (30초 초과)"⟩

/-- The result dictionary built by `web_hello.execute_language`. -/
structure WebResult where
  status : String
  progress : ℚ
  output : String
  error : String
  write_time : Nat
  compile_time : Nat
  run_time : Nat
  total_time : Nat
  failed : Bool
deriving Repr, DecidableEq

/-- Initial value of the result dictionary. -/
def initResult : WebResult := ⟨"대기 중", 0, "", "", 0, 0, 0, 0, false⟩

/-- Outcome of a front end's compile loop: total elapsed across the
attempted steps, plus the failing step's result if one failed. -/
inductive CompileOutcome where
  | success (total : Nat)
  | failure (total : Nat) (res : SubpResult)
deriving Repr, DecidableEq

/-- Whether a compile-loop outcome is a success. -/
def CompileOutcome.isSuccess : CompileOutcome → Bool
  | .success _ => true
  | .failure _ _ => false

/-- One executor invocation as observed at the `subprocess.run` boundary:
the argv vector and the working directory it was launched in. -/
structure Call where
  cmd : List String
  cwd : String
deriving Repr, DecidableEq

/-- The `for cmd in spec.compile_cmds` loop of `execute_language`:
runs steps in order, accumulating elapsed time, stopping at the first
failure.  Also returns the executor invocations actually made. -/
def compileLoop (cmds : List (List String)) (procs : List RawProc) (acc : Nat) :
    CompileOutcome × List Call :=
  match cmds with
  | [] => (.success acc, [])
  | cmd :: rest =>
    let r := run_subprocess cmd (procs.headD okProc)
    if r.ok then
      let (o, calls) := compileLoop rest procs.tail (acc + r.elapsed)
      (o, Call.mk cmd WORKSPACE :: calls)
    else (.failure (acc + r.elapsed) r, [Call.mk cmd WORKSPACE])

/-- `web_hello.execute_language` (lines 668-738).  Returns the result
dictionary, the sequence of values assigned to `result["progress"]` in
program order, and the log of executor invocations (command stages only;
the source write is not a subprocess). -/
def execute_language (spec : LanguageSpec) (env : LangEnv) :
    WebResult × List ℚ × List Call :=
  if !env.writeOk then
    ({ initResult with
        status := "파일 작성 실패", error := env.writeErr,
        failed := true, progress := 100 }, [100], [])
  else
    let r1 := { initResult with write_time := env.writeTime, progress := 25 }
    match spec.compile_cmds with
    | [] =>
      let s := run_subprocess spec.runCmd env.runProc
      let r2 := { r1 with
          status := "실행 중...", run_time := s.elapsed,
          total_time := r1.write_time + r1.compile_time + s.elapsed }
      if s.ok then
        ({ r2 with
            status := "실행 완료", output := strOr s.stdout "(출력 없음)",
            progress := 100 }, [25, 100], [Call.mk spec.runCmd WORKSPACE])
      else
        ({ r2 with
            status := "실행 실패", error := strOr s.stderr s.stdout,
            failed := true, progress := 100 }, [25, 100], [Call.mk spec.runCmd WORKSPACE])
    | _ :: _ =>
      match compileLoop spec.compile_cmds env.compileProcs 0 with
      | (.failure total res, calls) =>
        ({ r1 with
            status := "컴파일 실패", error := strOr res.stderr res.stdout,
            failed := true, compile_time := total,
            total_time := r1.write_time + total,
            progress := 100 }, [25, 100], calls)
      | (.success total, calls) =>
        let r15 := { r1 with compile_time := total, progress := 70 }
        let s := run_subprocess spec.runCmd env.runProc
        let r2 := { r15 with
            status := "실행 중...", run_time := s.elapsed,
            total_time := r15.write_time + r15.compile_time + s.elapsed }
        if s.ok then
          ({ r2 with
              status := "실행 완료", output := strOr s.stdout "(출력 없음)",
              progress := 100 }, [25, 70, 100],
            calls ++ [Call.mk spec.runCmd WORKSPACE])
        else
          ({ r2 with
              status := "실행 실패", error := strOr s.stderr s.stdout,
              failed := true, progress := 100 }, [25, 70, 100],
            calls ++ [Call.mk spec.runCmd WORKSPACE])

/-- Whether, per the environment, the pipeline should fail: the write
fails, some compile step fails under the 30s timeout, or the run command
fails under the 30s timeout. -/
def shouldFail (spec : LanguageSpec) (env : LangEnv) : Bool :=
  !env.writeOk
    || (List.range spec.compile_cmds.length).any (fun i => !ok30 (env.compileProc i))
    || !ok30 env.runProc

end HelloAsm.Web

namespace HelloAsm.Educational

open HelloAsm

/-- The workspace directory of `educational_hello.py`. -/
def WORKSPACE : String := "educational_hello_workspace"

/-- `educational_hello.run_subprocess` (lines 133-155): `subprocess.run`
with `cwd=WORKSPACE` and text capture but NO timeout argument; strips both
streams on success and on `CalledProcessError`; `FileNotFoundError` yields
`str(exc)`.  The `timedOut` arm is unreachable: no timeout is passed, so
`TimeoutExpired` is never raised (nor caught by the source). -/
def run_subprocess (cmd : List String) (proc : RawProc) : SubpResult :=
  match subprocessRun proc none with
  | .ok out err => ⟨true, proc.duration, pyStrip out, pyStrip err⟩
  | .fileNotFound => ⟨false, proc.duration, "", fileNotFoundStr cmd⟩
  | .nonZero _ out err => ⟨false, proc.duration, pyStrip out, pyStrip err⟩
  | .timedOut => ⟨false, proc.duration, "", ""⟩

/-- The `timings` dictionary of a `LanguageState` (keys "write",
"compile", "run", "total"; a key is `none` while unset). -/
structure Timings where
  write : Option Nat := none
  compile : Option Nat := none
  run : Option Nat := none
  total : Option Nat := none
deriving Repr, DecidableEq

/-- `educational_hello.LanguageState` (the fields the orchestration
mutates; the `visible_lines` reveal animation is display only). -/
structure LanguageState where
  status : String := "⏳ Waiting"
  stdout : String := ""
  stderr : String := ""
  failed : Bool := false
  timings : Timings := {}
deriving Repr, DecidableEq

/-- The compile loop of `main` Step 2 (lines 310-327): `i` is the
1-indexed step number, `n` the total step count, `acc` the accumulated
compile time, `adv` the number of `progress.advance` calls so far.  Stops
at the first failing step, storing `stderr_text or stdout_text`. -/
def compileLoop (n : Nat) (i : Nat) (cmds : List (List String)) (procs : List RawProc)
    (st : LanguageState) (acc : Nat) (adv : Nat) : LanguageState × Nat × Nat :=
  match cmds with
  | [] => (st, acc, adv)
  | cmd :: rest =>
    let st := { st with status := "⚙️ Compiling (" ++ toString i ++ "/" ++ toString n ++ ")" }
    let r := run_subprocess cmd (procs.headD okProc)
    let acc := acc + r.elapsed
    if !r.ok then
      ({ st with
          status := "❌ Compilation error", stderr := strOr r.stderr r.stdout,
          failed := true }, acc, adv)
    else
      let st := { st with
          stdout := if r.stdout ≠ "" then r.stdout else st.stdout,
          stderr := if r.stderr ≠ "" then r.stderr else st.stderr }
      compileLoop n (i + 1) rest procs.tail st acc (adv + 1)

/-- `main` Step 2 for one language (lines 289-334): write the source file
(recording its timing and advancing the progress task), then, if the spec
has no compile steps, record a compile timing of exactly 0, else run the
compile loop and record the accumulated compile time.  Returns the state
and the number of `progress.advance` calls. -/
def step2 (spec : LanguageSpec) (env : LangEnv) : LanguageState × Nat :=
  let st : LanguageState := {}
  let st := { st with status := "🗂️ Writing source file" }
  let st := { st with timings := { st.timings with write := some env.writeTime } }
  if !env.writeOk then
    ({ st with
        status := "❌ Write failed: " ++ env.writeErr, stderr := env.writeErr,
        failed := true }, 1)
  else if spec.compile_cmds = [] then
    ({ st with
        timings := { st.timings with compile := some 0 },
        status := "✅ Ready to interpret" }, 1)
  else
    let (st, ctime, adv) :=
      compileLoop spec.compile_cmds.length 1 spec.compile_cmds env.compileProcs st 0 1
    if st.failed then
      ({ st with timings := { st.timings with compile := some ctime } }, adv)
    else
      ({ st with
          timings := { st.timings with compile := some ctime },
          status := "✅ Compilation complete" }, adv)

/-- `main` Step 3 for one language (lines 341-358): skipped when the state
is already failed; otherwise executes the run command, recording its
timing, output and errors.  The returned Bool says whether the run stage
invoked the executor. -/
def step3 (spec : LanguageSpec) (env : LangEnv) (st : LanguageState) :
    LanguageState × Bool :=
  if st.failed then ({ st with status := "⛔ Skipped due to earlier error" }, false)
  else
    let st := { st with status := "🚀 Executing binary" }
    let r := run_subprocess spec.runCmd env.runProc
    let st := { st with timings := { st.timings with run := some r.elapsed } }
    if r.ok then
      ({ st with
          status := "✅ Execution succeeded", stdout := strOr r.stdout "<no output>",
          stderr := r.stderr }, true)
    else
      ({ st with
          status := "❌ Execution error",
          stderr := strOr r.stderr (strOr r.stdout "Execution failed"),
          failed := true }, true)

/-- One language's whole pipeline through Steps 2 and 3: final state,
number of per-step progress advances, and whether the run stage executed. -/
def runLanguage (spec : LanguageSpec) (env : LangEnv) : LanguageState × Nat × Bool :=
  let (st, adv) := step2 spec env
  let (st2, ranRun) := step3 spec env st
  (st2, adv, ranRun)

end HelloAsm.Educational

namespace HelloAsm.MultiLang

open HelloAsm

/-- `multi_lang_hello.run_command` (lines 94-125): `subprocess.run` with
`cwd=workspace`, text capture, `check=True` and NO timeout argument;
returns only success and elapsed time (streams are printed, not stored).
The `timedOut` arm is unreachable: no timeout is passed. -/
def run_command (cmd : List String) (proc : RawProc) : Bool × Nat :=
  match subprocessRun proc none with
  | .ok _ _ => (true, proc.duration)
  | .fileNotFound => (false, proc.duration)
  | .nonZero _ _ _ => (false, proc.duration)
  | .timedOut => (false, proc.duration)

/-- `multi_lang_hello.run_compile_steps` (lines 143-150): run compile
commands in order, stopping at the first failure.  Returns overall success
and the executor actions performed. -/
def run_compile_steps (cmds : List (List String)) (procs : List RawProc) :
    Bool × List Action :=
  match cmds with
  | [] => (true, [])
  | cmd :: rest =>
    let (ok, _) := run_command cmd (procs.headD okProc)
    if ok then
      let (s, acts) := run_compile_steps rest procs.tail
      (s, .execCmd "compile" cmd :: acts)
    else (false, [.execCmd "compile" cmd])

/-- `multi_lang_hello.process_language` (lines 178-190) as its action
trace: write the source file (stopping on failure); if there are compile
steps, run them and skip the run on compilation failure; otherwise run
directly. -/
def process_language (spec : LanguageSpec) (env : LangEnv) : List Action :=
  if !env.writeOk then [.writeFile spec.filename]
  else
    .writeFile spec.filename ::
      (match spec.compile_cmds with
       | [] => [.execCmd "run" spec.runCmd]
       | _ :: _ =>
         let (ok, acts) := run_compile_steps spec.compile_cmds env.compileProcs
         if ok then acts ++ [.execCmd "run" spec.runCmd] else acts)

/-- `multi_lang_hello.main` (lines 193-210) as its action trace plus
whether the workspace still exists afterwards: pre-clean any stale
workspace, create it, process every language in order, and in the
`finally` block clean the workspace up exactly once (best-effort). -/
def main (langs : List LanguageSpec) (envs : List LangEnv) (fs : FsEnv) :
    List Action × Bool :=
  let pre := if fs.initialExists then [Action.rmtreeWs] else []
  let body := (List.zipWith process_language langs envs).flatten
  (pre ++ [Action.createWs] ++ body ++ [Action.rmtreeWs], !fs.rmtreeOk)

end HelloAsm.MultiLang

namespace HelloAsm.Graphical

open HelloAsm

/-- The workspace directory of `graphical_hello.py`. -/
def WORKSPACE : String := "graphical_hello_workspace"

/-- `GraphicalHelloApp._run_subprocess` (lines 487-510): `subprocess.run`
with `cwd=workspace`, text capture and `timeout=30`; strips both streams on
success; on `CalledProcessError e` returns `e.stdout or ""` and
`e.stderr or str(e)` unstripped; `FileNotFoundError` yields `str(e)`;
`TimeoutExpired` a fixed Korean message. -/
def run_subprocess (cmd : List String) (proc : RawProc) : SubpResult :=
  match subprocessRun proc (some 30) with
  | .ok out err => ⟨true, proc.duration, pyStrip out, pyStrip err⟩
  | .nonZero code out err => ⟨false, proc.duration, out, strOr err (calledProcessErrorStr cmd code)⟩
  | .fileNotFound => ⟨false, proc.duration, "", fileNotFoundStr cmd⟩
  | .timedOut => ⟨false, proc.duration, "", "타임아웃 (30초 초과)"⟩

/-- `graphical_hello.LanguageState`. -/
structure LanguageState where
  status : String := "대기 중"
  progress : ℚ := 0
  output : String := ""
  error : String := ""
  write_time : Nat := 0
  compile_time : Nat := 0
  run_time : Nat := 0
  total_time : Nat := 0
  failed : Bool := false
deriving Repr, DecidableEq

/-- The compile loop of `_execute_language` (lines 543-558): `i` completed
steps so far out of `n`; after each successful step the progress is set to
`40 + 30 * (i + 1) / n` and a panel update is posted; the first failure
stores the error, the accumulated compile time and total time, posts a
final update and returns.  Result: final state, posted updates, failure
flag, accumulated compile time. -/
def compileLoop (n : Nat) (cmds : List (List String)) (procs : List RawProc) (i : Nat)
    (st : LanguageState) (acc : Nat) : LanguageState × List LanguageState × Bool × Nat :=
  match cmds with
  | [] => (st, [], false, acc)
  | cmd :: rest =>
    let r := run_subprocess cmd (procs.headD okProc)
    let acc := acc + r.elapsed
    if !r.ok then
      let st := { st with
          status := "컴파일 실패", error := strOr r.stderr r.stdout,
          failed := true, compile_time := acc,
          total_time := st.write_time + acc }
      (st, [st], true, acc)
    else
      let st := { st with progress := 40 + 30 * ((i : ℚ) + 1) / (n : ℚ) }
      let (st2, ups, f, acc2) := compileLoop n rest procs.tail (i + 1) st acc
      (st2, st :: ups, f, acc2)

/-- The run phase of `_execute_language` (lines 562-584): progress 70 is
posted, then "실행 중..." at 85, then the run command executes and the
terminal update is posted at progress 100 with either outcome. -/
def runPhase (spec : LanguageSpec) (env : LangEnv) (st : LanguageState)
    (ups : List LanguageState) : LanguageState × List LanguageState × Bool :=
  let st6 := { st with progress := 70 }
  let st7 := { st6 with status := "실행 중...", progress := 85 }
  let r := run_subprocess spec.runCmd env.runProc
  let st8 := { st7 with
      run_time := r.elapsed,
      total_time := st7.write_time + st7.compile_time + r.elapsed }
  let st9 :=
    if r.ok then
      { st8 with
          status := "실행 완료", output := strOr r.stdout "(출력 없음)",
          progress := 100 }
    else
      { st8 with
          status := "실행 실패", error := strOr r.stderr r.stdout,
          failed := true, progress := 100 }
  (st9, ups ++ [st6, st7, st9], true)

/-- `GraphicalHelloApp._execute_language` (lines 512-584): returns the
final state, the sequence of panel updates posted (each a state snapshot),
and whether the run stage was reached. -/
def execute_language (spec : LanguageSpec) (env : LangEnv) :
    LanguageState × List LanguageState × Bool :=
  let st0 : LanguageState := {}
  let st1 := { st0 with status := "소스 파일 작성 중...", progress := 10 }
  if !env.writeOk then
    let st2 := { st1 with status := "파일 작성 실패", error := env.writeErr, failed := true }
    (st2, [st1, st2], false)
  else
    let st2 := { st1 with write_time := env.writeTime, progress := 25 }
    match spec.compile_cmds with
    | [] => runPhase spec env st2 [st1, st2]
    | _ :: _ =>
      let st3 := { st2 with status := "컴파일 중...", progress := 40 }
      let (st4, ups, failedC, acc) :=
        compileLoop spec.compile_cmds.length spec.compile_cmds env.compileProcs 0 st3 0
      if failedC then (st4, [st1, st2, st3] ++ ups, false)
      else
        let st5 := { st4 with compile_time := acc }
        runPhase spec env st5 ([st1, st2, st3] ++ ups)

/-- The list of progress percentages posted to a language's panel over one
`_execute_language` call. -/
def progressTrace (spec : LanguageSpec) (env : LangEnv) : List ℚ :=
  ((execute_language spec env).2.1).map (·.progress)

/-- The summary computed by `_finish_execution` (lines 632-641). -/
structure Summary where
  successCount : Nat
  failCount : Nat
  totalTime : Nat
deriving Repr, DecidableEq

/-- `GraphicalHelloApp._finish_execution` (lines 632-641): success count is
the number of states not marked failed, fail count the remainder, and the
total elapsed wall time of the run is included in the reported status. -/
def finish (states : List LanguageState) (totalTime : Nat) : Summary :=
  let succ := (states.filter (fun s => !s.failed)).length
  ⟨succ, states.length - succ, totalTime⟩

/-- The compile-step executor actions `_execute_language` performs, with
overall success (used for the orchestration trace of `_start_execution`). -/
def compileCalls (cmds : List (List String)) (procs : List RawProc) :
    List Action × Bool :=
  match cmds with
  | [] => ([], true)
  | cmd :: rest =>
    let r := run_subprocess cmd (procs.headD okProc)
    if r.ok then
      let (acts, ok) := compileCalls rest procs.tail
      (.execCmd "compile" cmd :: acts, ok)
    else ([.execCmd "compile" cmd], false)

/-- The filesystem/executor actions of one `_execute_language` worker:
write, compile steps until the first failure, and the run command exactly
when the write and all compile steps succeeded. -/
def pipelineActions (spec : LanguageSpec) (env : LangEnv) : List Action :=
  if !env.writeOk then [.writeFile spec.filename]
  else
    let (acts, ok) := compileCalls spec.compile_cmds env.compileProcs
    .writeFile spec.filename :: (if ok then acts ++ [.execCmd "run" spec.runCmd] else acts)

/-- `GraphicalHelloApp._start_execution` / `run_all` (lines 586-630) as an
action trace: clear any stale workspace, create it, start one worker per
language, join them all, then remove the workspace once (best-effort,
wrapped in try/except).  The Bool is whether the workspace still exists
afterwards.  The per-worker actions are concatenated in registry order;
the join before cleanup is what the trace's ordering models. -/
def startExecution (langs : List LanguageSpec) (envs : List LangEnv) (fs : FsEnv) :
    List Action × Bool :=
  let pre := if fs.initialExists then [Action.rmtreeWs] else []
  let body := (List.zipWith pipelineActions langs envs).flatten
  (pre ++ [Action.createWs] ++ body ++ [Action.rmtreeWs], !fs.rmtreeOk)

end HelloAsm.Graphical

namespace HelloAsm.Animated

open HelloAsm

/-- The workspace directory of `animated_hello.py`. -/
def WORKSPACE : String := "animated_hello_workspace"

/-- `animated_hello.run_subprocess` (lines 671-686): `subprocess.run` with
`cwd=WORKSPACE`, text capture and `timeout=30`; strips both streams on
success; on `CalledProcessError e` returns `e.stdout or ""` and
`e.stderr or str(e)` unstripped; `FileNotFoundError` and `TimeoutExpired`
yield fixed Korean messages. -/
def run_subprocess (cmd : List String) (proc : RawProc) : SubpResult :=
  match subprocessRun proc (some 30) with
  | .ok out err => ⟨true, proc.duration, pyStrip out, pyStrip err⟩
  | .nonZero code out err => ⟨false, proc.duration, out, strOr err (calledProcessErrorStr cmd code)⟩
  | .fileNotFound => ⟨false, proc.duration, "", "명령어를 찾을 수 없음: " ++ cmd.headD ""⟩
  | .timedOut => ⟨false, proc.duration, "", "타임아웃"⟩

/-- The events `send_event` publishes to the SSE queue (the `timing`
event's formatted text is modelled by its four numeric components). -/
inductive Event where
  | step (n : Nat) (message : String)
  | status (idx : Nat) (text : String)
  | cursor_show (idx : Nat)
  | cursor_hide (idx : Nat)
  | code_line (idx : Nat) (line : String)
  | compile_start (idx : Nat) (cmd : String)
  | compile_done (idx : Nat) (cmd : String) (time : Nat)
  | compile_error (idx : Nat) (cmd : String) (error : String)
  | run_start (idx : Nat) (cmd : String)
  | run_done (idx : Nat) (cmd : String) (output : String) (time : Nat)
  | run_error (idx : Nat) (cmd : String) (error : String)
  | progress (idx : Nat) (percent : Nat)
  | timing (idx : Nat) (write compile run total : Nat)
  | done (message : String)
deriving Repr, DecidableEq

/-- The per-pipeline `timings[idx]` dictionary (keys "write", "compile",
"run"; a key is `none` while unset). -/
structure Timings where
  write : Option Nat := none
  compile : Option Nat := none
  run : Option Nat := none
deriving Repr, DecidableEq

/-- Default environment (used when fewer environments than languages are
supplied): write succeeds instantly, every process exits 0 instantly. -/
def defaultEnv : LangEnv := ⟨true, "", 0, [], okProc⟩

/-- Structural splitter for `lang["code"].split('\n')` (split on a single
newline character; `String.splitOn` in core is defined by well-founded
recursion and does not reduce in the kernel). -/
def splitLinesAux : List Char → List Char → List String
  | [], acc => [⟨acc.reverse⟩]
  | c :: cs, acc =>
    if c = '\n' then ⟨acc.reverse⟩ :: splitLinesAux cs []
    else splitLinesAux cs (c :: acc)

/-- `lang["code"].split('\n')`. -/
def codeLinesOf (spec : LanguageSpec) : List String := splitLinesAux spec.source.data []

/-- Step 1 typing animation, one language at one line number: a
`code_line` event plus a progress event `int((line_num+1)/len(lines)*30)`
(exact rational arithmetic in place of Python floats). -/
def typingEventsAt (line : Nat) (idx : Nat) (lines : List String) : List Event :=
  if line < lines.length then
    [.code_line idx (lines.getD line ""),
     .progress idx (((line + 1) * 30) / lines.length)]
  else []

/-- `run_animation` Step 1 (lines 698-722): per-language status/cursor/
progress-0 events, then the interleaved line-by-line reveal, then
cursor-hide and completion statuses. -/
def step1Events (langs : List LanguageSpec) : List Event :=
  let pre := langs.enum.flatMap fun p =>
    [Event.status p.1 "작성 중...", Event.cursor_show p.1, Event.progress p.1 0]
  let codeLines := langs.map codeLinesOf
  let maxLines := (codeLines.map List.length).foldr max 0
  let typing := (List.range maxLines).flatMap fun line =>
    codeLines.enum.flatMap fun p => typingEventsAt line p.1 p.2
  let post := langs.enum.flatMap fun p =>
    [Event.cursor_hide p.1, Event.status p.1 "✅ 작성 완료"]
  Event.step 1 "📝 Step 1: 코드 작성 중..." :: pre ++ typing ++ post

/-- The Step 2 compile loop for one language (lines 742-756): emits
`compile_start` per step; on the first failure emits `compile_error`
(stderr truncated to 100 characters) and a failure status and stops.
Returns events, accumulated compile time, the last command string, and the
failure flag. -/
def compileLoop (idx : Nat) (cmds : List (List String)) (procs : List RawProc)
    (acc : Nat) (last : String) : List Event × Nat × String × Bool :=
  match cmds with
  | [] => ([], acc, last, false)
  | cmd :: rest =>
    let cmdStr := String.intercalate " " cmd
    let r := run_subprocess cmd (procs.headD okProc)
    if r.ok then
      let (evs, total, l, f) := compileLoop idx rest procs.tail (acc + r.elapsed) cmdStr
      (Event.compile_start idx cmdStr :: evs, total, l, f)
    else
      ([Event.compile_start idx cmdStr, Event.compile_error idx cmdStr (r.stderr.take 100),
        Event.status idx "❌ 컴파일 실패"], acc + r.elapsed, cmdStr, true)

/-- `run_animation` Step 2 for one language (lines 727-767): status and
progress 30, the (unguarded) source write recording its timing, the
compile loop, then either a single `compile_done` with progress 70 or
progress 100 on failure.  The source write has no try/except, so the
embedding takes it as succeeding. -/
def step2For (idx : Nat) (spec : LanguageSpec) (env : LangEnv) :
    List Event × Timings × Bool :=
  let pre := [Event.status idx "컴파일 중...", Event.progress idx 30]
  let (cevs, ctotal, last, failed) := compileLoop idx spec.compile_cmds env.compileProcs 0 ""
  let t : Timings := { write := some env.writeTime, compile := some ctotal, run := none }
  if failed then (pre ++ cevs ++ [Event.progress idx 100], t, true)
  else
    (pre ++ cevs ++ [Event.compile_done idx last ctotal,
      Event.status idx "✅ 컴파일 완료", Event.progress idx 70], t, false)

/-- The filesystem probe `(WORKSPACE / lang["run_cmd"][0].replace('./',
'')).exists()` in Step 3 (line 775): the workspace is recreated fresh at
the start of `run_animation`, so the run binary exists exactly when the
spec has compile steps and every one of them succeeded (the last step
produces the binary).  For a spec with no compile steps the run command
names an interpreter outside the workspace, so the probe is false. -/
def binaryExists (spec : LanguageSpec) (env : LangEnv) : Bool :=
  !spec.compile_cmds.isEmpty &&
    (List.range spec.compile_cmds.length).all (fun i => ok30 (env.compileProc i))

/-- `run_animation` Step 3 for one language (lines 774-801): skipped only
when the recorded compile time equals 0 AND the run binary is absent;
otherwise emits status/run_start/progress-85, executes the run command,
emits `run_done` or `run_error` (stderr truncated to 100 characters),
progress 100 and the timing summary. -/
def step3For (idx : Nat) (spec : LanguageSpec) (env : LangEnv) (t : Timings) :
    List Event × Timings :=
  if t.compile.getD 0 == 0 && !binaryExists spec env then ([], t)
  else
    let cmdStr := String.intercalate " " spec.runCmd
    let r := run_subprocess spec.runCmd env.runProc
    let t2 := { t with run := some r.elapsed }
    let resultEvs :=
      if r.ok then [Event.run_done idx cmdStr r.stdout r.elapsed, Event.status idx "✅ 실행 완료"]
      else [Event.run_error idx cmdStr (r.stderr.take 100), Event.status idx "❌ 실행 실패"]
    let total := t2.write.getD 0 + t2.compile.getD 0 + t2.run.getD 0
    ([Event.status idx "실행 중...", Event.run_start idx cmdStr, Event.progress idx 85]
      ++ resultEvs
      ++ [Event.progress idx 100,
          Event.timing idx (t2.write.getD 0) (t2.compile.getD 0) (t2.run.getD 0) total], t2)

/-- The per-pipeline timing dictionaries as they stand at the end of
Step 3 (the `timings` list of `run_animation`). -/
def finalTimings (langs : List LanguageSpec) (envs : List LangEnv) : List Timings :=
  langs.enum.map fun p =>
    let env := envs.getD p.1 defaultEnv
    (step3For p.1 p.2 env (step2For p.1 p.2 env).2.1).2

/-- `success_count = sum(1 for t in timings if t.get('run', 0) > 0)`
(line 812): the number of pipelines whose recorded run time is positive,
regardless of whether the run succeeded. -/
def successCount (langs : List LanguageSpec) (envs : List LangEnv) : Nat :=
  ((finalTimings langs envs).filter (fun t => decide (0 < t.run.getD 0))).length

/-- `animated_hello.run_animation` (lines 688-815) as its published event
stream.  The workspace recreation at the start and the best-effort rmtree
before the final `done` event are filesystem actions, not events, and are
not part of the stream. -/
def run_animation (langs : List LanguageSpec) (envs : List LangEnv) : List Event :=
  let envAt := fun i => envs.getD i defaultEnv
  let step2evs := langs.enum.flatMap (fun p => (step2For p.1 p.2 (envAt p.1)).1)
  let step3evs := langs.enum.flatMap (fun p =>
    (step3For p.1 p.2 (envAt p.1) (step2For p.1 p.2 (envAt p.1)).2.1).1)
  step1Events langs
    ++ (Event.step 2 "⚙️ Step 2: 컴파일 중..." :: step2evs)
    ++ (Event.step 3 "🚀 Step 3: 실행 중..." :: step3evs)
    ++ [Event.step 4 "🏁 Step 4: 완료!",
        Event.done ("완료! 성공: " ++ toString (successCount langs envs) ++ "/"
          ++ toString langs.length)]

/-- The progress percentages published for pipeline `idx`, in order. -/
def progressEvents (idx : Nat) (evs : List Event) : List Nat :=
  evs.filterMap fun e =>
    match e with
    | .progress i p => if i = idx then some p else none
    | _ => none

/-- Recogniser for `compile_done` events. -/
def Event.isCompileDone : Event → Bool
  | .compile_done _ _ _ => true
  | _ => false

/-- Recogniser for `compile_error` events. -/
def Event.isCompileError : Event → Bool
  | .compile_error _ _ _ => true
  | _ => false

/-- Recogniser for `run_start` events. -/
def Event.isRunStart : Event → Bool
  | .run_start _ _ => true
  | _ => false

end HelloAsm.Animated

namespace HelloAsm.MultiLang

/-- The `LANGUAGES` registry of `multi_lang_hello.py` (lines 33-72). -/
def LANGUAGES : List LanguageSpec := [
  ⟨"Python", "hello.py", "print(\"Hello World\")\n", [],
    ["python3", "hello.py"]⟩,
  ⟨"C", "hello.c",
    "#include <stdio.h>\nint main(void)\x7bputs(\"Hello World\");return 0;\x7d\n",
    [["gcc", "hello.c", "-o", "hello_c"]], ["./hello_c"]⟩,
  ⟨"C++", "hello.cpp",
    "#include <iostream>\nint main()\x7bstd::cout<<\"Hello World\\n\";\x7d\n",
    [["g++", "hello.cpp", "-o", "hello_cpp"]], ["./hello_cpp"]⟩,
  ⟨"Rust", "hello.rs", "fn main()\x7bprintln!(\"Hello World\");\x7d\n",
    [["rustc", "hello.rs", "-o", "hello_rust"]], ["./hello_rust"]⟩,
  ⟨"x86-64 Assembly", "hello.asm",
    "section .data\n    msg db \"Hello World\", 10\n    len equ $ - msg\n\nsection .text\n    global _start\n\n_start:\n    mov rax, 1\n    mov rdi, 1\n    mov rsi, msg\n    mov rdx, len\n    syscall\n\n    mov rax, 60\n    xor rdi, rdi\n    syscall\n",
    [["nasm", "-f", "elf64", "hello.asm", "-o", "hello.o"],
     ["ld", "hello.o", "-o", "hello_asm"]], ["./hello_asm"]⟩]

end HelloAsm.MultiLang

namespace HelloAsm.Fixtures

open HelloAsm

/-- A one-compile-step C-like spec with a two-line source, used as a
concrete input for the theorems below. -/
def cSpec1 : LanguageSpec :=
  ⟨"C", "hello.c", "int main(void){}\n", [["gcc", "hello.c", "-o", "hello_c"]], ["./hello_c"]⟩

/-- A two-compile-step assembly-like spec (assemble, then link). -/
def asmSpec2 : LanguageSpec :=
  ⟨"Assembly", "hello.asm", "_start:\n", 
    [["nasm", "-f", "elf64", "hello.asm", "-o", "hello.o"],
     ["ld", "hello.o", "-o", "hello_asm"]], ["./hello_asm"]⟩

/-- Everything succeeds; the run prints "Hello World" with a newline. -/
def envAllOk : LangEnv :=
  ⟨true, "", 1, [⟨true, 0, 2, "", ""⟩, ⟨true, 0, 3, "", ""⟩],
    ⟨true, 0, 1, "Hello World\n", ""⟩⟩

/-- The first compile step succeeds, the second (the linker) exits 1 with
stderr text after a positive elapsed time; the run binary was therefore
never produced, and the binary named by the run command does not resolve. -/
def envFail2 : LangEnv :=
  ⟨true, "", 1, [⟨true, 0, 2, "", ""⟩, ⟨true, 1, 1, "", "undefined reference"⟩],
    ⟨false, 0, 0, "", ""⟩⟩

/-- The compile step succeeds but the run command exits 2 after a positive
elapsed time. -/
def envRunFail : LangEnv :=
  ⟨true, "", 1, [⟨true, 0, 2, "", ""⟩], ⟨true, 2, 1, "boom out", "boom err"⟩⟩

/-- A compile step that exits 1 printing "oops" on stdout and nothing on
stderr. -/
def envStdoutOnlyFail : LangEnv :=
  ⟨true, "", 1, [⟨true, 1, 1, "oops", ""⟩], okProc⟩

/-- A run command that takes 1000 time units (seconds) and then exits 0. -/
def slowProc : RawProc := ⟨true, 0, 1000, "Hello World\n", ""⟩

end HelloAsm.Fixtures

namespace HelloAsm

/-- A web/graphical/animated executor call succeeds exactly when the
process resolves, exits 0 and finishes within the 30-second bound. -/
lemma web_run_subprocess_ok (cmd : List String) (p : RawProc) :
    (Web.run_subprocess cmd p).ok = ok30 p := by
  rcases p with ⟨found, code, dur, out, err⟩
  cases found
  · simp [Web.run_subprocess, subprocessRun, ok30]
  · by_cases hd : 30 < dur
    · simp [Web.run_subprocess, subprocessRun, ok30, hd, not_le.mpr hd]
    · by_cases hc : code = 0
      · simp [Web.run_subprocess, subprocessRun, ok30, hd, hc, le_of_not_lt hd]
      · simp [Web.run_subprocess, subprocessRun, ok30, hd, hc]

/-- Same success criterion for the graphical executor. -/
lemma graphical_run_subprocess_ok (cmd : List String) (p : RawProc) :
    (Graphical.run_subprocess cmd p).ok = ok30 p := by
  rcases p with ⟨found, code, dur, out, err⟩
  cases found
  · simp [Graphical.run_subprocess, subprocessRun, ok30]
  · by_cases hd : 30 < dur
    · simp [Graphical.run_subprocess, subprocessRun, ok30, hd, not_le.mpr hd]
    · by_cases hc : code = 0
      · simp [Graphical.run_subprocess, subprocessRun, ok30, hd, hc, le_of_not_lt hd]
      · simp [Graphical.run_subprocess, subprocessRun, ok30, hd, hc]

/-- Same success criterion for the animated executor. -/
lemma animated_run_subprocess_ok (cmd : List String) (p : RawProc) :
    (Animated.run_subprocess cmd p).ok = ok30 p := by
  rcases p with ⟨found, code, dur, out, err⟩
  cases found
  · simp [Animated.run_subprocess, subprocessRun, ok30]
  · by_cases hd : 30 < dur
    · simp [Animated.run_subprocess, subprocessRun, ok30, hd, not_le.mpr hd]
    · by_cases hc : code = 0
      · simp [Animated.run_subprocess, subprocessRun, ok30, hd, hc, le_of_not_lt hd]
      · simp [Animated.run_subprocess, subprocessRun, ok30, hd, hc]

/-- The educational executor passes no timeout: success is resolution plus
exit 0 and never depends on the duration. -/
lemma educational_run_subprocess_ok (cmd : List String) (p : RawProc) :
    (Educational.run_subprocess cmd p).ok = okNoTimeout p := by
  rcases p with ⟨found, code, dur, out, err⟩
  cases found
  · simp [Educational.run_subprocess, subprocessRun, okNoTimeout]
  · by_cases hc : code = 0 <;>
      simp [Educational.run_subprocess, subprocessRun, okNoTimeout, hc]

/-- The plain-console executor passes no timeout either. -/
lemma multiLang_run_command_ok (cmd : List String) (p : RawProc) :
    (MultiLang.run_command cmd p).1 = okNoTimeout p := by
  rcases p with ⟨found, code, dur, out, err⟩
  cases found
  · simp [MultiLang.run_command, subprocessRun, okNoTimeout]
  · by_cases hc : code = 0 <;>
      simp [MultiLang.run_command, subprocessRun, okNoTimeout, hc]

lemma getD_tail (l : List RawProc) (i : Nat) :
    l.tail[i]?.getD okProc = l[i + 1]?.getD okProc := by
  cases l <;> simp

lemma head_getD (l : List RawProc) :
    l.headD okProc = l[0]?.getD okProc := by
  cases l <;> simp

lemma headq_getD (l : List RawProc) :
    l.head?.getD okProc = l[0]?.getD okProc := by
  cases l <;> simp

/-- The web compile loop succeeds exactly when every step succeeds under
the 30-second timeout. -/
lemma web_compileLoop_isSuccess (cmds : List (List String)) (procs : List RawProc) (acc : Nat) :
    ((Web.compileLoop cmds procs acc).1).isSuccess =
      (List.range cmds.length).all (fun i => ok30 (procs[i]?.getD okProc)) := by
  induction cmds generalizing procs acc with
  | nil => simp [Web.compileLoop, Web.CompileOutcome.isSuccess]
  | cons c rest ih =>
    simp only [Web.compileLoop, web_run_subprocess_ok, head_getD]
    rw [List.length_cons, List.range_succ_eq_map]
    cases hh : ok30 (procs[0]?.getD okProc) with
    | true =>
      rw [if_pos rfl]
      simp only [List.all_cons, List.all_map, hh, Bool.true_and]
      rw [ih]
      congr 1
      funext i
      simp [Function.comp, getD_tail]
    | false =>
      rw [if_neg (by simp)]
      simp [Web.CompileOutcome.isSuccess, List.all_cons, hh]

lemma any_not_eq_not_all (l : List Nat) (f : Nat → Bool) :
    (l.any fun i => !f i) = !l.all f := by
  induction l with
  | nil => simp
  | cons a t ih => simp [ih, Bool.not_and]

/-- C9: every return path of the web variant's `execute_language` yields a
result whose `progress` field is exactly 100, and whose `failed` flag is
true exactly when the source write, some compile step, or the run command
failed. -/
theorem c9_web_progress_always_100_and_failed_iff (spec : LanguageSpec) (env : LangEnv) :
    (Web.execute_language spec env).1.progress = 100 ∧
    (Web.execute_language spec env).1.failed = Web.shouldFail spec env := by
  obtain ⟨name, fn, srcText, cmds, runC⟩ := spec
  obtain ⟨wOk, wErr, wT, procs, runP⟩ := env
  cases wOk
  · simp [Web.execute_language, Web.shouldFail]
  · cases cmds with
    | nil =>
      cases hr : ok30 runP with
      | true =>
        simp [Web.execute_language, Web.shouldFail, Web.initResult,
          web_run_subprocess_ok, hr, LangEnv.compileProc]
      | false =>
        simp [Web.execute_language, Web.shouldFail, Web.initResult,
          web_run_subprocess_ok, hr, LangEnv.compileProc]
    | cons c rest =>
      have hS := web_compileLoop_isSuccess (c :: rest) procs 0
      have hA := any_not_eq_not_all (List.range (c :: rest).length)
        (fun i => ok30 (procs[i]?.getD okProc))
      rcases hL : Web.compileLoop (c :: rest) procs 0 with ⟨outcome, calls⟩
      rw [hL] at hS
      cases outcome with
      | failure total res =>
        simp only [Web.CompileOutcome.isSuccess] at hS
        simp [Web.execute_language, Web.shouldFail, hL, LangEnv.compileProc, hA, ← hS]
        left
        have h2 := hS.symm
        rw [List.all_eq_false] at h2
        rcases h2 with ⟨x, hx, hfx⟩
        exact ⟨x, by simpa using hx, by simpa using hfx⟩
      | success total =>
        simp only [Web.CompileOutcome.isSuccess] at hS
        cases hr : ok30 runP with
        | true =>
          simp [Web.execute_language, Web.shouldFail, Web.initResult, hL,
            web_run_subprocess_ok, hr, LangEnv.compileProc, hA, ← hS]
          intro x hx
          have h2 := hS.symm
          rw [List.all_eq_true] at h2
          exact h2 x (List.mem_range.mpr hx)
        | false =>
          simp [Web.execute_language, Web.shouldFail, Web.initResult, hL,
            web_run_subprocess_ok, hr, LangEnv.compileProc, hA, ← hS]

lemma web_compileLoop_calls_cwd (cmds : List (List String)) (procs : List RawProc) (acc : Nat) :
    ∀ call ∈ (Web.compileLoop cmds procs acc).2, call.cwd = Web.WORKSPACE := by
  induction cmds generalizing procs acc with
  | nil => simp [Web.compileLoop]
  | cons c rest ih =>
    simp only [Web.compileLoop]
    cases hh : (Web.run_subprocess c (procs.headD okProc)).ok
    · rw [if_neg (by simp [hh])]
      simp
    · rw [if_pos (by simp [hh])]
      intro call hc
      rcases List.mem_cons.mp hc with h | h
      · simp [h]
      · exact ih procs.tail _ call h

/-- C3 (amended): the web, animated and graphical executors enforce the
30-second timeout — a resolving process that runs longer yields a failed
result with the timeout message (the process is killed rather than letting
the call block); the rich-dashboard and plain-console executors pass no
timeout, so a resolving process exiting 0 yields success no matter how
long it ran; and the web variant launches every command stage with the
working directory set to the workspace. -/
theorem c3_amended_timeout_and_cwd :
    (∀ cmd p, p.found = true → 30 < p.duration →
        Web.run_subprocess cmd p = ⟨false, p.duration, "", "타임아웃 (30초 초과)"⟩ ∧
        Animated.run_subprocess cmd p = ⟨false, p.duration, "", "타임아웃"⟩ ∧
        Graphical.run_subprocess cmd p = ⟨false, p.duration, "", "타임아웃 (30초 초과)"⟩) ∧
    (∀ cmd p, p.found = true → p.exitCode = 0 →
        Educational.run_subprocess cmd p = ⟨true, p.duration, pyStrip p.stdout, pyStrip p.stderr⟩ ∧
        MultiLang.run_command cmd p = (true, p.duration)) ∧
    (∀ spec env, ∀ call ∈ (Web.execute_language spec env).2.2, call.cwd = Web.WORKSPACE) := by
  refine ⟨?_, ?_, ?_⟩
  · intro cmd p hfound hd
    refine ⟨?_, ?_, ?_⟩ <;>
      simp [Web.run_subprocess, Animated.run_subprocess, Graphical.run_subprocess,
        subprocessRun, hfound, hd]
  · intro cmd p hfound hcode
    refine ⟨?_, ?_⟩ <;>
      simp [Educational.run_subprocess, MultiLang.run_command, subprocessRun, hfound, hcode]
  · intro spec env
    obtain ⟨name, fn, srcText, cmds, runC⟩ := spec
    obtain ⟨wOk, wErr, wT, procs, runP⟩ := env
    cases wOk
    · simp [Web.execute_language]
    · cases cmds with
      | nil =>
        cases hr : (Web.run_subprocess runC runP).ok <;>
          simp [Web.execute_language, hr]
      | cons c rest =>
        rcases hL : Web.compileLoop (c :: rest) procs 0 with ⟨outcome, calls⟩
        have hcw := web_compileLoop_calls_cwd (c :: rest) procs 0
        rw [hL] at hcw
        cases outcome with
        | failure total res =>
          simpa [Web.execute_language, hL] using hcw
        | success total =>
          cases hr : (Web.run_subprocess runC runP).ok <;>
          · intro call hc
            simp [Web.execute_language, hL, hr] at hc
            rcases hc with h | h
            · exact hcw call h
            · simp [h]

/-- C3 is false as stated: the rich-dashboard executor passes no timeout,
so a process that runs for 1000 seconds is not terminated — the call
returns an ordinary success instead of a Timeout failure.  (The
plain-console executor likewise passes no timeout.) -/
theorem c3_counterexample_no_timeout_in_educational :
    30 < (Fixtures.slowProc).duration ∧
    Educational.run_subprocess ["./hello_c"] Fixtures.slowProc =
      ⟨true, 1000, "Hello World", ""⟩ ∧
    MultiLang.run_command ["./hello_c"] Fixtures.slowProc = (true, 1000) := by
  refine ⟨by norm_num [Fixtures.slowProc], by decide, by decide⟩

/-- Witness for `c3_amended_timeout_and_cwd` at concrete inputs. -/
theorem c3_amended_witness :
    Web.run_subprocess ["./hello_c"] Fixtures.slowProc =
      ⟨false, 1000, "", "타임아웃 (30초 초과)"⟩ ∧
    Educational.run_subprocess ["./hello_c"] ⟨true, 0, 1000, "hi", ""⟩ =
      ⟨true, 1000, "hi", ""⟩ := by
  constructor
  · exact (c3_amended_timeout_and_cwd.1 ["./hello_c"] Fixtures.slowProc rfl
      (by decide)).1
  · have h := (c3_amended_timeout_and_cwd.2.1 ["./hello_c"] ⟨true, 0, 1000, "hi", ""⟩ rfl rfl).1
    exact h.trans rfl

/-- C10 (amended): on successful commands every cited executor strips both
captured streams (so a hello-world run is reported as exactly
"Hello World" with no trailing newline); the rich-dashboard executor also
strips on a non-zero exit; but the web and animated executors return the
failure-path streams unstripped. -/
theorem c10_amended_strip_semantics :
    (∀ cmd p, ok30 p = true →
        Web.run_subprocess cmd p = ⟨true, p.duration, pyStrip p.stdout, pyStrip p.stderr⟩ ∧
        Animated.run_subprocess cmd p = ⟨true, p.duration, pyStrip p.stdout, pyStrip p.stderr⟩ ∧
        Graphical.run_subprocess cmd p = ⟨true, p.duration, pyStrip p.stdout, pyStrip p.stderr⟩) ∧
    (∀ cmd p, okNoTimeout p = true →
        Educational.run_subprocess cmd p = ⟨true, p.duration, pyStrip p.stdout, pyStrip p.stderr⟩) ∧
    (∀ cmd p, p.found = true → p.exitCode ≠ 0 →
        Educational.run_subprocess cmd p = ⟨false, p.duration, pyStrip p.stdout, pyStrip p.stderr⟩) ∧
    (∀ cmd p, p.found = true → p.exitCode ≠ 0 → p.duration ≤ 30 →
        Web.run_subprocess cmd p =
          ⟨false, p.duration, p.stdout, strOr p.stderr (calledProcessErrorStr cmd p.exitCode)⟩) := by
  refine ⟨?_, ?_, ?_, ?_⟩
  · intro cmd p h
    simp only [ok30, Bool.and_eq_true, beq_iff_eq, decide_eq_true_eq] at h
    obtain ⟨⟨hf, hc⟩, hd⟩ := h
    refine ⟨?_, ?_, ?_⟩ <;>
      simp [Web.run_subprocess, Animated.run_subprocess, Graphical.run_subprocess,
        subprocessRun, hf, hc, not_lt.mpr hd]
  · intro cmd p h
    simp only [okNoTimeout, Bool.and_eq_true, beq_iff_eq] at h
    obtain ⟨hf, hc⟩ := h
    simp [Educational.run_subprocess, subprocessRun, hf, hc]
  · intro cmd p hf hc
    simp [Educational.run_subprocess, subprocessRun, hf, hc]
  · intro cmd p hf hc hd
    simp [Web.run_subprocess, subprocessRun, hf, hc, not_lt.mpr hd]

/-- C10 is false as stated: on a failing command the web executor stores
the captured stderr unstripped, trailing newline included. -/
theorem c10_counterexample_failure_not_stripped :
    (Web.run_subprocess ["gcc", "hello.c"] ⟨true, 1, 1, "", "syntax error\n"⟩).stderr =
      "syntax error\n" ∧
    "syntax error\n" ≠ pyStrip "syntax error\n" := by
  exact ⟨by decide, by decide⟩

/-- Witness for `c10_amended_strip_semantics`: the hello-world scenario. -/
theorem c10_amended_witness :
    ok30 ⟨true, 0, 1, "Hello World\n", ""⟩ = true ∧
    (Web.run_subprocess ["./hello_c"] ⟨true, 0, 1, "Hello World\n", ""⟩).stdout =
      "Hello World" := by
  refine ⟨by decide, ?_⟩
  rw [(c10_amended_strip_semantics.1 ["./hello_c"]
    ⟨true, 0, 1, "Hello World\n", ""⟩ (by decide)).1]
  decide

/-- C8 (amended): for a command stage exiting non-zero, the rich-dashboard
variant stores the stripped stderr, falling back to the stripped stdout
when stderr is empty; the web and animated executors instead return
`e.stderr or str(e)` — when the captured stderr is empty the stored text
is the CalledProcessError message, not the captured stdout — and the
animated variant truncates the published error text to 100 characters. -/
theorem c8_amended_error_fallback :
    (∀ spec env cmd p, spec.compile_cmds = [cmd] → env.compileProcs = [p] →
        env.writeOk = true → p.found = true → p.exitCode ≠ 0 →
        (Educational.runLanguage spec env).1.stderr =
          strOr (pyStrip p.stderr) (pyStrip p.stdout) ∧
        (Educational.runLanguage spec env).1.failed = true) ∧
    (∀ cmd p, p.found = true → p.exitCode ≠ 0 → p.duration ≤ 30 →
        (Web.run_subprocess cmd p).stderr =
          strOr p.stderr (calledProcessErrorStr cmd p.exitCode) ∧
        (Animated.run_subprocess cmd p).stderr =
          strOr p.stderr (calledProcessErrorStr cmd p.exitCode)) ∧
    (∀ idx cmd p, p.found = true → p.exitCode ≠ 0 → p.duration ≤ 30 →
        (Animated.compileLoop idx [cmd] [p] 0 "").1 =
          [Animated.Event.compile_start idx (String.intercalate " " cmd),
           Animated.Event.compile_error idx (String.intercalate " " cmd)
             ((strOr p.stderr (calledProcessErrorStr cmd p.exitCode)).take 100),
           Animated.Event.status idx "❌ 컴파일 실패"]) := by
  refine ⟨?_, ?_, ?_⟩
  · intro spec env cmd p hcmd hproc hw hf hc
    obtain ⟨name, fn, srcText, cmds, runC⟩ := spec
    obtain ⟨wOk, wErr, wT, procs, runP⟩ := env
    simp only at hcmd hproc hw
    subst hcmd hproc hw
    constructor <;>
      simp [Educational.runLanguage, Educational.step2, Educational.step3,
        Educational.compileLoop, Educational.run_subprocess, subprocessRun, hf, hc, strOr]
  · intro cmd p hf hc hd
    constructor <;>
      simp [Web.run_subprocess, Animated.run_subprocess, subprocessRun, hf, hc, not_lt.mpr hd]
  · intro idx cmd p hf hc hd
    simp [Animated.compileLoop, Animated.run_subprocess, subprocessRun, hf, hc, not_lt.mpr hd]

/-- C8 is false as stated: a compile step exiting 1 with stdout "oops" and
empty stderr is stored by the web variant as the CalledProcessError
message, not as the captured stdout. -/
theorem c8_counterexample_stdout_fallback_missing :
    (Web.execute_language Fixtures.cSpec1 Fixtures.envStdoutOnlyFail).1.error =
      calledProcessErrorStr ["gcc", "hello.c", "-o", "hello_c"] 1 ∧
    (Web.execute_language Fixtures.cSpec1 Fixtures.envStdoutOnlyFail).1.error ≠ "oops" ∧
    (Fixtures.envStdoutOnlyFail.compileProc 0).stdout = "oops" ∧
    (Fixtures.envStdoutOnlyFail.compileProc 0).stderr = "" := by
  refine ⟨by decide, by decide, by decide, by decide⟩

/-- Witness for `c8_amended_error_fallback` at concrete inputs. -/
theorem c8_amended_witness :
    (Educational.runLanguage Fixtures.cSpec1 Fixtures.envStdoutOnlyFail).1.stderr = "oops" ∧
    (Web.run_subprocess ["gcc"] ⟨true, 1, 1, "oops", ""⟩).stderr =
      calledProcessErrorStr ["gcc"] 1 := by
  constructor
  · have h := (c8_amended_error_fallback.1 Fixtures.cSpec1 Fixtures.envStdoutOnlyFail
      ["gcc", "hello.c", "-o", "hello_c"] ⟨true, 1, 1, "oops", ""⟩ rfl rfl rfl rfl
      (by decide)).1
    rw [h]
    decide
  · have h := (c8_amended_error_fallback.2.1 ["gcc"] ⟨true, 1, 1, "oops", ""⟩ rfl
      (by decide) (by decide)).1
    rw [h]
    simp [strOr]

/-- C1: exhibit of the defect on a concrete failing input.  For a spec with
two compile steps whose second step (the linker) exits non-zero after a
positive elapsed time, the animated front end emits zero compile
stage-done events (the claim demands k−1 = 1 of them), and then — although
the pipeline has failed — emits `run_start` and invokes the Stage Executor
for the run stage: the Step 3 guard tests `compile time == 0 and the run
binary is absent` instead of the failed flag, contradicting its own
"skip on compile failure" comment (line 776 of the source). -/
theorem c1_animated_executes_run_after_failure :
    ((Animated.run_animation [Fixtures.asmSpec2] [Fixtures.envFail2]).countP
        Animated.Event.isCompileDone = 0) ∧
    ((Animated.run_animation [Fixtures.asmSpec2] [Fixtures.envFail2]).countP
        Animated.Event.isRunStart = 1) ∧
    ((Animated.run_animation [Fixtures.asmSpec2] [Fixtures.envFail2]).findIdx
        Animated.Event.isCompileError <
      (Animated.run_animation [Fixtures.asmSpec2] [Fixtures.envFail2]).findIdx
        Animated.Event.isRunStart) ∧
    ((Animated.run_animation [Fixtures.asmSpec2] [Fixtures.envFail2]).contains
        (Animated.Event.status 0 "❌ 컴파일 실패") = true) := by
  refine ⟨by decide, by decide, by decide, by decide⟩

lemma length_filter_failed_add (states : List Graphical.LanguageState) :
    states.length - (states.filter (fun s => !s.failed)).length =
      (states.filter (fun s => s.failed)).length := by
  induction states with
  | nil => simp
  | cons s rest ih =>
    have hle := List.length_filter_le (fun s => !s.failed) rest
    cases hf : s.failed <;> simp [List.filter_cons, hf] <;> omega

/-- C7 (amended): the graphical run summary reports successCount = the
number of pipelines not marked failed, failCount = the remainder, together
with the total elapsed wall time of the run; the animated variant's final
`done` event instead reports the count of pipelines whose recorded run
time is positive, out of the total count, and carries no elapsed time. -/
theorem c7_amended_run_summary (states : List Graphical.LanguageState) (t : Nat)
    (langs : List LanguageSpec) (envs : List LangEnv) :
    (Graphical.finish states t).successCount =
      (states.filter (fun s => !s.failed)).length ∧
    (Graphical.finish states t).failCount =
      (states.filter (fun s => s.failed)).length ∧
    (Graphical.finish states t).totalTime = t ∧
    (Animated.run_animation langs envs).getLast? =
      some (Animated.Event.done ("완료! 성공: "
        ++ toString (Animated.successCount langs envs) ++ "/" ++ toString langs.length)) := by
  refine ⟨rfl, ?_, rfl, ?_⟩
  · simpa [Graphical.finish] using length_filter_failed_add states
  · rw [Animated.run_animation]
    rw [show ∀ l1 l2 (a b : Animated.Event), l1 ++ l2 ++ [a, b] = (l1 ++ l2 ++ [a]) ++ [b] by
      intro l1 l2 a b
      simp]
    exact List.getLast?_concat _

/-- C7 is false as stated: with one pipeline whose compile step succeeds
and whose run command exits non-zero after a positive elapsed time, the
animated `done` event reports "성공: 1/1" although the pipeline terminated
in the failure status — the count is computed from positive run timings,
not from terminal states. -/
theorem c7_counterexample_failed_run_counted_as_success :
    (Animated.run_animation [Fixtures.cSpec1] [Fixtures.envRunFail]).contains
        (Animated.Event.done "완료! 성공: 1/1") = true ∧
    (Animated.run_animation [Fixtures.cSpec1] [Fixtures.envRunFail]).contains
        (Animated.Event.status 0 "❌ 실행 실패") = true ∧
    (Animated.run_animation [Fixtures.cSpec1] [Fixtures.envRunFail]).countP
        (fun e => e == Animated.Event.status 0 "✅ 실행 완료") = 0 := by
  refine ⟨by decide, by decide, by decide⟩

lemma multiLang_run_compile_steps_no_ws (cmds : List (List String)) (procs : List RawProc) :
    ∀ a ∈ (MultiLang.run_compile_steps cmds procs).2,
      a ≠ Action.rmtreeWs ∧ a ≠ Action.createWs := by
  induction cmds generalizing procs with
  | nil => simp [MultiLang.run_compile_steps]
  | cons c rest ih =>
    simp only [MultiLang.run_compile_steps]
    cases h : (MultiLang.run_command c (procs.headD okProc)).1
    · simp [h]
    · simp only [h, if_pos rfl]
      intro a ha
      rcases List.mem_cons.mp ha with h2 | h2
      · simp [h2]
      · exact ih procs.tail a h2

lemma multiLang_process_language_no_ws (spec : LanguageSpec) (env : LangEnv) :
    ∀ a ∈ MultiLang.process_language spec env,
      a ≠ Action.rmtreeWs ∧ a ≠ Action.createWs := by
  unfold MultiLang.process_language
  cases hw : env.writeOk
  · simp
  · simp only [Bool.not_true]
    rw [if_neg (by exact Bool.false_ne_true)]
    intro a ha
    rcases List.mem_cons.mp ha with h2 | h2
    · simp [h2]
    · rcases hc : spec.compile_cmds with _ | ⟨c, rest⟩
      · rw [hc] at h2
        simp at h2
        simp [h2]
      · rw [hc] at h2
        simp only at h2
        rcases hs : (MultiLang.run_compile_steps (c :: rest) env.compileProcs) with ⟨ok, acts⟩
        rw [hs] at h2
        have hacts := multiLang_run_compile_steps_no_ws (c :: rest) env.compileProcs
        rw [hs] at hacts
        cases ok
        · rw [if_neg (by exact Bool.false_ne_true)] at h2
          exact hacts a h2
        · simp only [if_pos rfl] at h2
          rcases List.mem_append.mp h2 with h3 | h3
          · exact hacts a h3
          · simp at h3
            simp [h3]

lemma multiLang_body_no_ws (langs : List LanguageSpec) (envs : List LangEnv) :
    ∀ a ∈ (List.zipWith MultiLang.process_language langs envs).flatten,
      a ≠ Action.rmtreeWs ∧ a ≠ Action.createWs := by
  induction langs generalizing envs with
  | nil => simp
  | cons l ls ih =>
    cases envs with
    | nil => simp
    | cons e es =>
      intro a ha
      simp only [List.zipWith_cons_cons, List.flatten_cons] at ha
      rcases List.mem_append.mp ha with h | h
      · exact multiLang_process_language_no_ws l e a h
      · exact ih es a h

lemma graphical_compileCalls_no_ws (cmds : List (List String)) (procs : List RawProc) :
    ∀ a ∈ (Graphical.compileCalls cmds procs).1,
      a ≠ Action.rmtreeWs ∧ a ≠ Action.createWs := by
  induction cmds generalizing procs with
  | nil => simp [Graphical.compileCalls]
  | cons c rest ih =>
    simp only [Graphical.compileCalls]
    cases h : (Graphical.run_subprocess c (procs.headD okProc)).ok
    · simp [h]
    · simp only [h, if_pos rfl]
      intro a ha
      rcases List.mem_cons.mp ha with h2 | h2
      · simp [h2]
      · exact ih procs.tail a h2

lemma graphical_pipelineActions_no_ws (spec : LanguageSpec) (env : LangEnv) :
    ∀ a ∈ Graphical.pipelineActions spec env,
      a ≠ Action.rmtreeWs ∧ a ≠ Action.createWs := by
  unfold Graphical.pipelineActions
  cases hw : env.writeOk
  · simp
  · simp only [Bool.not_true]
    rw [if_neg (by exact Bool.false_ne_true)]
    intro a ha
    rcases hs : (Graphical.compileCalls spec.compile_cmds env.compileProcs) with ⟨acts, ok⟩
    rw [hs] at ha
    have hacts := graphical_compileCalls_no_ws spec.compile_cmds env.compileProcs
    rw [hs] at hacts
    rcases List.mem_cons.mp ha with h2 | h2
    · simp [h2]
    · cases ok
      · rw [if_neg (by exact Bool.false_ne_true)] at h2
        exact hacts a h2
      · simp only [if_pos rfl] at h2
        rcases List.mem_append.mp h2 with h3 | h3
        · exact hacts a h3
        · simp at h3
          simp [h3]

lemma graphical_body_no_ws (langs : List LanguageSpec) (envs : List LangEnv) :
    ∀ a ∈ (List.zipWith Graphical.pipelineActions langs envs).flatten,
      a ≠ Action.rmtreeWs ∧ a ≠ Action.createWs := by
  induction langs generalizing envs with
  | nil => simp
  | cons l ls ih =>
    cases envs with
    | nil => simp
    | cons e es =>
      intro a ha
      simp only [List.zipWith_cons_cons, List.flatten_cons] at ha
      rcases List.mem_append.mp ha with h | h
      · exact graphical_pipelineActions_no_ws l e a h
      · exact ih es a h

/-- C4: in both cited orchestrators (plain console `main` and the GUI
`_start_execution`/`run_all`), after the workspace is created the body of
the run — every pipeline's writes and executor calls — contains no
workspace removal or re-creation; a single `rmtree` follows after every
pipeline has finished, and when that rmtree succeeds the workspace no
longer exists after the run. -/
theorem c4_workspace_destroyed_once_after_all_pipelines (langs : List LanguageSpec)
    (envs : List LangEnv) (fs : FsEnv) (hrm : fs.rmtreeOk = true) :
    MultiLang.main langs envs fs =
      ((if fs.initialExists then [Action.rmtreeWs] else []) ++ [Action.createWs]
        ++ (List.zipWith MultiLang.process_language langs envs).flatten
        ++ [Action.rmtreeWs], false) ∧
    (∀ a ∈ (List.zipWith MultiLang.process_language langs envs).flatten,
      a ≠ Action.rmtreeWs ∧ a ≠ Action.createWs) ∧
    Graphical.startExecution langs envs fs =
      ((if fs.initialExists then [Action.rmtreeWs] else []) ++ [Action.createWs]
        ++ (List.zipWith Graphical.pipelineActions langs envs).flatten
        ++ [Action.rmtreeWs], false) ∧
    (∀ a ∈ (List.zipWith Graphical.pipelineActions langs envs).flatten,
      a ≠ Action.rmtreeWs ∧ a ≠ Action.createWs) := by
  refine ⟨?_, multiLang_body_no_ws langs envs, ?_, graphical_body_no_ws langs envs⟩
  · simp [MultiLang.main, hrm]
  · simp [Graphical.startExecution, hrm]

/-- Witness for `c4_workspace_destroyed_once_after_all_pipelines` on a
concrete one-language run. -/
theorem c4_witness :
    MultiLang.main [Fixtures.cSpec1] [Fixtures.envAllOk] ⟨false, true⟩ =
      ([Action.createWs, Action.writeFile "hello.c",
        Action.execCmd "compile" ["gcc", "hello.c", "-o", "hello_c"],
        Action.execCmd "run" ["./hello_c"], Action.rmtreeWs], false) := by
  have h := (c4_workspace_destroyed_once_after_all_pipelines [Fixtures.cSpec1]
    [Fixtures.envAllOk] ⟨false, true⟩ rfl).1
  rw [h]
  decide

/-- C6: a spec with an empty compile-step list goes straight from the
source write to the run stage in all three cited front ends — no compile
executor call is made — and the recorded compile timing is exactly 0. -/
theorem c6_empty_compile_list_skips_compiling (spec : LanguageSpec) (env : LangEnv)
    (hc : spec.compile_cmds = []) (hw : env.writeOk = true) :
    (Educational.runLanguage spec env).1.timings.compile = some 0 ∧
    (Educational.runLanguage spec env).2.2 = true ∧
    (Web.execute_language spec env).1.compile_time = 0 ∧
    (Web.execute_language spec env).2.2 = [Web.Call.mk spec.runCmd Web.WORKSPACE] ∧
    MultiLang.process_language spec env =
      [Action.writeFile spec.filename, Action.execCmd "run" spec.runCmd] := by
  obtain ⟨name, fn, srcText, cmds, runC⟩ := spec
  obtain ⟨wOk, wErr, wT, procs, runP⟩ := env
  simp only at hc hw
  subst hc hw
  refine ⟨?_, ?_, ?_, ?_, ?_⟩
  · cases hro : (Educational.run_subprocess runC runP).ok <;>
      simp [Educational.runLanguage, Educational.step2, Educational.step3, hro]
  · cases hro : (Educational.run_subprocess runC runP).ok <;>
      simp [Educational.runLanguage, Educational.step2, Educational.step3, hro]
  · cases hro : (Web.run_subprocess runC runP).ok <;>
      simp [Web.execute_language, Web.initResult, hro]
  · cases hro : (Web.run_subprocess runC runP).ok <;>
      simp [Web.execute_language, hro]
  · simp [MultiLang.process_language]

/-- Witness for `c6_empty_compile_list_skips_compiling`: the Python entry
of the plain-console registry. -/
theorem c6_witness :
    (MultiLang.LANGUAGES.headD Fixtures.cSpec1).compile_cmds = [] ∧
    MultiLang.process_language (MultiLang.LANGUAGES.headD Fixtures.cSpec1) Fixtures.envAllOk =
      [Action.writeFile "hello.py", Action.execCmd "run" ["python3", "hello.py"]] := by
  refine ⟨by decide, ?_⟩
  have h := (c6_empty_compile_list_skips_compiling
    (MultiLang.LANGUAGES.headD Fixtures.cSpec1) Fixtures.envAllOk (by decide) rfl).2.2.2.2
  rw [h]
  decide

end HelloAsm

namespace HelloAsm

lemma graphical_compileLoop_allOk (cmds : List (List String)) (procs : List RawProc)
    (n i : Nat) (st : Graphical.LanguageState) (acc : Nat)
    (hok : ∀ j < cmds.length, ok30 (procs[j]?.getD okProc) = true) :
    (Graphical.compileLoop n cmds procs i st acc).2.1.map (fun u => u.progress) =
      (List.range cmds.length).map
        (fun (j : Nat) => 40 + 30 * ((i : ℚ) + (j : ℚ) + 1) / (n : ℚ)) ∧
    (Graphical.compileLoop n cmds procs i st acc).2.2.1 = false := by
  induction cmds generalizing procs i st acc with
  | nil => simp [Graphical.compileLoop]
  | cons c rest ih =>
    have h0 : ok30 (procs[0]?.getD okProc) = true := hok 0 (by simp)
    have hrest : ∀ j < rest.length, ok30 (procs.tail[j]?.getD okProc) = true := by
      intro j hj
      rw [getD_tail]
      exact hok (j + 1) (by simp; omega)
    simp only [Graphical.compileLoop, graphical_run_subprocess_ok, head_getD, h0,
      Bool.not_true, Bool.false_eq_true, if_false]
    have hih := ih procs.tail (i + 1)
      { st with progress := 40 + 30 * ((i : ℚ) + 1) / (n : ℚ) }
      (acc + (Graphical.run_subprocess c (procs[0]?.getD okProc)).elapsed) hrest
    refine ⟨?_, hih.2⟩
    rw [List.length_cons, List.range_succ_eq_map]
    simp only [List.map_cons, List.map_map, hih.1, List.cons.injEq]
    refine ⟨by push_cast; ring, ?_⟩
    apply List.map_congr_left
    intro a ha
    simp only [Function.comp]
    push_cast
    ring

end HelloAsm

namespace HelloAsm

/-- C5 (amended), part supporting lemma is above.  See theorem below. -/
lemma web_trace_allOk (spec : LanguageSpec) (env : LangEnv)
    (hw : env.writeOk = true)
    (hall : ∀ j < spec.compile_cmds.length, ok30 (env.compileProcs[j]?.getD okProc) = true) :
    (Web.execute_language spec env).2.1 =
      if spec.compile_cmds.isEmpty then [25, 100] else [25, 70, 100] := by
  obtain ⟨name, fn, srcText, cmds, runC⟩ := spec
  obtain ⟨wOk, wErr, wT, procs, runP⟩ := env
  simp only at hw hall
  subst hw
  cases cmds with
  | nil =>
    cases hr : (Web.run_subprocess runC runP).ok <;>
      simp [Web.execute_language, hr]
  | cons c rest =>
    have hS := web_compileLoop_isSuccess (c :: rest) procs 0
    rcases hL : Web.compileLoop (c :: rest) procs 0 with ⟨outcome, calls⟩
    rw [hL] at hS
    cases outcome with
    | failure total res =>
      exfalso
      simp only [Web.CompileOutcome.isSuccess] at hS
      have : (List.range (c :: rest).length).all
          (fun i => ok30 (procs[i]?.getD okProc)) = true := by
        rw [List.all_eq_true]
        intro x hx
        exact hall x (List.mem_range.mp hx)
      rw [← hS] at this
      exact Bool.false_ne_true this
    | success total =>
      cases hr : (Web.run_subprocess runC runP).ok <;>
        simp [Web.execute_language, hL, hr]

lemma graphical_trace_allOk (spec : LanguageSpec) (env : LangEnv)
    (hw : env.writeOk = true)
    (hall : ∀ j < spec.compile_cmds.length, ok30 (env.compileProcs[j]?.getD okProc) = true) :
    Graphical.progressTrace spec env =
      [10, 25] ++
        (if spec.compile_cmds.isEmpty then ([] : List ℚ)
         else 40 :: (List.range spec.compile_cmds.length).map
            (fun (j : Nat) => 40 + 30 * ((0 : ℚ) + (j : ℚ) + 1) / (spec.compile_cmds.length : ℚ)))
        ++ [70, 85, 100] := by
  obtain ⟨name, fn, srcText, cmds, runC⟩ := spec
  obtain ⟨wOk, wErr, wT, procs, runP⟩ := env
  simp only at hw hall
  subst hw
  cases cmds with
  | nil =>
    cases hr : (Graphical.run_subprocess runC runP).ok <;>
      simp [Graphical.progressTrace, Graphical.execute_language, Graphical.runPhase, hr]
  | cons c rest =>
    have h1 := fun (st : Graphical.LanguageState) (acc : Nat) =>
      (graphical_compileLoop_allOk (c :: rest) procs (rest.length + 1) 0 st acc hall).1
    have h2 := fun (st : Graphical.LanguageState) (acc : Nat) =>
      (graphical_compileLoop_allOk (c :: rest) procs (rest.length + 1) 0 st acc hall).2
    cases hr : (Graphical.run_subprocess runC runP).ok <;>
      simp [Graphical.progressTrace, Graphical.execute_language, Graphical.runPhase,
        h1, h2, hr]

end HelloAsm

namespace HelloAsm

lemma animated_trace_allOk (env : LangEnv)
    (h0 : ok30 (env.compileProcs[0]?.getD okProc) = true) :
    Animated.progressEvents 0 (Animated.run_animation [Fixtures.cSpec1] [env]) =
      [0, 15, 30, 30, 70, 85, 100] := by
  cases hr : ok30 env.runProc <;>
    simp [Animated.progressEvents, Animated.run_animation, Animated.step1Events,
      Animated.step2For, Animated.step3For, Animated.compileLoop, Animated.binaryExists,
      Animated.typingEventsAt, Animated.codeLinesOf, Animated.splitLinesAux,
      Fixtures.cSpec1, animated_run_subprocess_ok, head_getD, headq_getD, h0, hr,
      Animated.finalTimings, Animated.successCount, Animated.defaultEnv,
      LangEnv.compileProc, List.range_succ]

end HelloAsm

namespace HelloAsm

/-- C5 (amended): each front end's progress mapping is deterministic and
independent of wall-clock timing — on an all-success run the reported
percentages are a fixed function of the spec's structure alone — but the
mappings are NOT identical across front ends: the web variant reports 25
after the write, 70 after the compile steps (omitted when there are none)
and 100 at the end; the graphical variant posts 10 and 25 around the
write, 40 at compile start, a 40–70 band across the compile steps, then
70, 85 and 100; the animated variant (here on a one-compile-step spec
with a two-line source) publishes a 0–30 typing band, 30 at compile
start, 70 on compile success, 85 at run start and 100 at the end, and in
particular never the 25 that the other variants associate with the write. -/
theorem c5_amended_progress_mappings_per_frontend :
    (∀ spec env, env.writeOk = true →
      (∀ j < spec.compile_cmds.length, ok30 (env.compileProcs[j]?.getD okProc) = true) →
      (Web.execute_language spec env).2.1 =
        (if spec.compile_cmds.isEmpty then [25, 100] else [25, 70, 100]) ∧
      Graphical.progressTrace spec env =
        [10, 25] ++
          (if spec.compile_cmds.isEmpty then ([] : List ℚ)
           else 40 :: (List.range spec.compile_cmds.length).map
              (fun (j : Nat) => 40 + 30 * ((0 : ℚ) + (j : ℚ) + 1) / (spec.compile_cmds.length : ℚ)))
          ++ [70, 85, 100]) ∧
    (∀ env, ok30 (env.compileProcs[0]?.getD okProc) = true →
      Animated.progressEvents 0 (Animated.run_animation [Fixtures.cSpec1] [env]) =
        [0, 15, 30, 30, 70, 85, 100]) :=
  ⟨fun spec env hw hall => ⟨web_trace_allOk spec env hw hall,
      graphical_trace_allOk spec env hw hall⟩,
    fun env h0 => animated_trace_allOk env h0⟩

/-- C5 is false as stated: for the same one-compile-step spec under the
same all-success environment, the web and graphical variants emit
different progress sequences, and the animated variant never emits the
25% that the claim associates with write completion. -/
theorem c5_counterexample_mappings_not_identical :
    (Web.execute_language Fixtures.cSpec1 Fixtures.envAllOk).2.1 = [25, 70, 100] ∧
    Graphical.progressTrace Fixtures.cSpec1 Fixtures.envAllOk =
      [10, 25, 40, 70, 70, 85, 100] ∧
    ([25, 70, 100] : List ℚ) ≠ [10, 25, 40, 70, 70, 85, 100] ∧
    (25 : Nat) ∉ Animated.progressEvents 0
      (Animated.run_animation [Fixtures.cSpec1] [Fixtures.envAllOk]) := by
  refine ⟨by decide, ?_, by decide, by decide⟩
  have h := graphical_trace_allOk Fixtures.cSpec1 Fixtures.envAllOk rfl (by decide)
  rw [h]
  simp [Fixtures.cSpec1, List.range_succ]
  norm_num

/-- Witness for `c5_amended_progress_mappings_per_frontend` at concrete
inputs. -/
theorem c5_amended_witness :
    (Web.execute_language Fixtures.cSpec1 Fixtures.envAllOk).2.1 = [25, 70, 100] ∧
    Animated.progressEvents 0 (Animated.run_animation [Fixtures.cSpec1] [Fixtures.envAllOk]) =
      [0, 15, 30, 30, 70, 85, 100] := by
  constructor
  · have h := (c5_amended_progress_mappings_per_frontend.1 Fixtures.cSpec1 Fixtures.envAllOk
      rfl (by decide)).1
    rw [h]
    decide
  · exact c5_amended_progress_mappings_per_frontend.2 Fixtures.envAllOk (by decide)

end HelloAsm

namespace HelloAsm

lemma band_mono (n i : Nat) (hn : 0 < n) :
    40 + 30 * (i : ℚ) / (n : ℚ) ≤ 40 + 30 * ((i : ℚ) + 1) / (n : ℚ) := by
  have hn' : (0 : ℚ) < (n : ℚ) := by exact_mod_cast hn
  have h1 : (30 : ℚ) * i ≤ 30 * ((i : ℚ) + 1) := by
    have : (30 : ℚ) * ((i : ℚ) + 1) = 30 * i + 30 := by ring
    linarith
  have := (div_le_div_right hn').mpr h1
  linarith

lemma band_le_70 (n k : Nat) (hn : 0 < n) (hk : k ≤ n) :
    40 + 30 * (k : ℚ) / (n : ℚ) ≤ 70 := by
  have hn' : (0 : ℚ) < (n : ℚ) := by exact_mod_cast hn
  have hk' : (k : ℚ) ≤ (n : ℚ) := by exact_mod_cast hk
  have h : 30 * (k : ℚ) / (n : ℚ) ≤ 30 := by
    rw [div_le_iff hn']
    nlinarith
  linarith

/-- Invariant of the graphical compile loop: starting from a state whose
progress is at most the band value for `i` completed steps, the posted
progress values are non-decreasing, the final state's progress closes the
chain, and it never exceeds 70. -/
lemma graphical_compileLoop_chain (cmds : List (List String)) (procs : List RawProc)
    (n i : Nat) (st : Graphical.LanguageState) (acc : Nat)
    (hn : 0 < n) (hle : i + cmds.length ≤ n)
    (hp : st.progress ≤ 40 + 30 * (i : ℚ) / (n : ℚ)) :
    List.Chain' (· ≤ ·)
      (st.progress ::
        (Graphical.compileLoop n cmds procs i st acc).2.1.map (fun u => u.progress)) ∧
    (st.progress ::
        (Graphical.compileLoop n cmds procs i st acc).2.1.map (fun u => u.progress)).getLast? =
      some (Graphical.compileLoop n cmds procs i st acc).1.progress ∧
    (Graphical.compileLoop n cmds procs i st acc).1.progress ≤ 70 := by
  induction cmds generalizing procs i st acc with
  | nil =>
    refine ⟨by simp [Graphical.compileLoop], by simp [Graphical.compileLoop], ?_⟩
    simp only [Graphical.compileLoop]
    calc st.progress ≤ 40 + 30 * (i : ℚ) / (n : ℚ) := hp
      _ ≤ 70 := band_le_70 n i hn (by omega)
  | cons c rest ih =>
    simp only [Graphical.compileLoop]
    cases hh : (Graphical.run_subprocess c (procs.headD okProc)).ok with
    | false =>
      simp only [hh, Bool.not_false, if_pos rfl]
      have hb : st.progress ≤ 70 := by
        calc st.progress ≤ 40 + 30 * (i : ℚ) / (n : ℚ) := hp
          _ ≤ 70 := band_le_70 n i hn (by omega)
      refine ⟨?_, by simp, by simpa using hb⟩
      simp [List.chain'_cons]
    | true =>
      simp only [hh, Bool.not_true, Bool.false_eq_true, if_false, List.map_cons]
      have hstep : st.progress ≤ 40 + 30 * ((i : ℚ) + 1) / (n : ℚ) :=
        le_trans hp (band_mono n i hn)
      have hih := ih procs.tail (i + 1)
        { st with progress := 40 + 30 * ((i : ℚ) + 1) / (n : ℚ) }
        (acc + (Graphical.run_subprocess c (procs.headD okProc)).elapsed)
        (by simp only [List.length_cons] at hle; omega) (by simp)
      refine ⟨?_, ?_, hih.2.2⟩
      · rw [List.chain'_cons]
        exact ⟨by simpa using hstep, hih.1⟩
      · rw [List.getLast?_cons_cons]
        exact hih.2.1
end HelloAsm

namespace HelloAsm

/-- C2 (amended): in the graphical front end every pipeline's sequence of
posted progress percentages is non-decreasing, its first value is 10 (not
0), and it ends at 100 exactly when the pipeline reaches the run stage;
a pipeline failing at the write or during compilation ends below 100. -/
theorem c2_amended_graphical_progress_monotone (spec : LanguageSpec) (env : LangEnv) :
    List.Chain' (· ≤ ·) (Graphical.progressTrace spec env) ∧
    (Graphical.progressTrace spec env).head? = some 10 ∧
    ((Graphical.progressTrace spec env).getLast? = some 100 ↔
      (Graphical.execute_language spec env).2.2 = true) := by
  obtain ⟨name, fn, srcText, cmds, runC⟩ := spec
  obtain ⟨wOk, wErr, wT, procs, runP⟩ := env
  cases wOk
  · refine ⟨?_, ?_, ?_⟩ <;>
      simp [Graphical.progressTrace, Graphical.execute_language]
  · cases cmds with
    | nil =>
      cases hr : (Graphical.run_subprocess runC runP).ok <;>
        refine ⟨?_, ?_, ?_⟩ <;>
        simp [Graphical.progressTrace, Graphical.execute_language, Graphical.runPhase, hr] <;>
        decide
    | cons c rest =>
      have hchain := graphical_compileLoop_chain (c :: rest) procs (rest.length + 1) 0
        ⟨"컴파일 중...", 40, "", "", wT, 0, 0, 0, false⟩ 0
        (by omega) (by simp) (by norm_num)
      rcases hL : Graphical.compileLoop (rest.length + 1) (c :: rest) procs 0
        ⟨"컴파일 중...", 40, "", "", wT, 0, 0, 0, false⟩ 0 with ⟨st4, rss⟩
      rcases rss with ⟨ups, rss2⟩
      rcases rss2 with ⟨failedC, acc2⟩
      rw [hL] at hchain
      dsimp only at hchain
      obtain ⟨hch, hlast, h70⟩ := hchain
      cases failedC with
      | true =>
        refine ⟨?_, ?_, ?_⟩
        · simp only [Graphical.progressTrace, Graphical.execute_language, List.length_cons,
            hL, Bool.not_true, Bool.false_eq_true, if_false, if_true, List.map_append,
            List.map_cons, List.map_nil, List.cons_append, List.nil_append]
          rw [List.chain'_cons, List.chain'_cons]
          refine ⟨by norm_num, by norm_num, hch⟩
        · simp [Graphical.progressTrace, Graphical.execute_language, hL]
        · simp only [Graphical.progressTrace, Graphical.execute_language, List.length_cons,
            hL, Bool.not_true, Bool.false_eq_true, if_false, if_true, List.map_append,
            List.map_cons, List.map_nil, List.cons_append, List.nil_append]
          rw [List.getLast?_cons_cons, List.getLast?_cons_cons, hlast]
          simp only [Option.some.injEq]
          constructor
          · intro habs
            exfalso
            rw [habs] at h70
            norm_num at h70
          · intro habs
            exact absurd habs (by simp)
      | false =>
        cases hr : (Graphical.run_subprocess runC runP).ok <;>
        · refine ⟨?_, ?_, ?_⟩
          · simp only [Graphical.progressTrace, Graphical.execute_language,
              Graphical.runPhase, List.length_cons, hL, hr, Bool.not_true, Bool.false_eq_true,
              if_false, if_true, List.map_append, List.map_cons, List.map_nil,
              List.cons_append, List.nil_append]
            rw [show (10 : ℚ) :: 25 :: 40 :: (ups.map (fun u => u.progress) ++ [70, 85, 100]) =
                (10 :: 25 :: (40 :: ups.map (fun u => u.progress))) ++ [70, 85, 100] by simp]
            rw [List.chain'_append]
            refine ⟨?_, ?_, ?_⟩
            · rw [List.chain'_cons, List.chain'_cons]
              exact ⟨by norm_num, by norm_num, hch⟩
            · rw [List.chain'_cons, List.chain'_cons]
              exact ⟨by norm_num, by norm_num, List.chain'_singleton _⟩
            · intro x hx y hy
              simp only [Option.mem_def, List.getLast?_cons_cons] at hx
              rw [hlast] at hx
              simp only [Option.some.injEq] at hx
              simp only [Option.mem_def, List.head?_cons, Option.some.injEq] at hy
              subst hx
              subst hy
              exact h70
          · simp [Graphical.progressTrace, Graphical.execute_language, hL, hr,
              Graphical.runPhase]
          · simp only [Graphical.progressTrace, Graphical.execute_language,
              Graphical.runPhase, List.length_cons, hL, hr, Bool.not_true, Bool.false_eq_true,
              if_false, if_true, List.map_append, List.map_cons, List.map_nil,
              List.cons_append, List.nil_append]
            constructor
            · intro _
              trivial
            · intro _
              rw [show (10 : ℚ) :: 25 :: 40 :: (ups.map (fun u => u.progress) ++ [70, 85, 100]) =
                  (10 :: 25 :: 40 :: ups.map (fun u => u.progress) ++ [70, 85]) ++ [100] by simp]
              exact List.getLast?_concat _

end HelloAsm

namespace HelloAsm

/-- C2 is false as stated: in the graphical front end the first progress
percentage a pipeline posts is 10, not 0, even when everything succeeds;
and a pipeline whose second compile step fails posts the sequence
[10, 25, 40, 55, 55], which ends at 55, not 100. -/
theorem c2_counterexample_starts_at_10_and_can_end_below_100 :
    (Graphical.progressTrace Fixtures.cSpec1 Fixtures.envAllOk).head? = some 10 ∧
    (10 : ℚ) ≠ 0 ∧
    Graphical.progressTrace Fixtures.asmSpec2 Fixtures.envFail2 = [10, 25, 40, 55, 55] ∧
    (55 : ℚ) ≠ 100 := by
  refine ⟨?_, by norm_num, ?_, by norm_num⟩
  · have h := graphical_trace_allOk Fixtures.cSpec1 Fixtures.envAllOk rfl (by decide)
    rw [h]
    rfl
  · simp only [Graphical.progressTrace, Graphical.execute_language, Graphical.compileLoop,
      Graphical.run_subprocess, Graphical.runPhase, Fixtures.asmSpec2, Fixtures.envFail2,
      subprocessRun, ok30, strOr, pyStrip, calledProcessErrorStr, pyListRepr]
    norm_num

end HelloAsm
